import Mathlib

/-!
Verification of the Orderbook repository's event-stream wire protocol.

Two developments live here:

1. `Orderbook.Protocol` — the length-prefixed framing protocol of the
   specification (§3, §4, §6).  The repository standardizes on this
   length-prefixed scheme (spec §9) but no implementation of it exists under
   `src/`: `src/Networking/python/sender.py` and `receiver.py` are abandoned
   fixed-width drafts that cannot encode or decode any event (see
   `Orderbook.Python` below).  The Encoder/Decoder here are therefore
   modelled from the spec, faithful to its wire-format table and state
   machine.  Floating-point prices are represented by their IEEE-754
   binary32 bit patterns (a `Nat` below `2^32`), so the byte-level treatment
   is exact.

2. `Orderbook.Python` — a shallow embedding of the actual code in
   `src/Networking/python/sender.py` and `receiver.py`, with enough of
   Python's `struct.pack` semantics and attribute lookup on `bytes` to
   settle what those scripts do on every input.
-/

namespace Orderbook

namespace Protocol

/-- Big-endian 2-byte layout of an unsigned 16-bit value (spec §4.1 step 2,
§6: `u16` length fields, most significant byte first). -/
def u16be (n : Nat) : List Nat :=
  [n / 256 % 256, n % 256]

/-- Big-endian 4-byte layout of an unsigned 32-bit value (spec §4.1 step 3,
§6: `u32` quantity and IEEE-754 binary32 bit patterns, most significant byte
first). -/
def u32be (n : Nat) : List Nat :=
  [n / 16777216 % 256, n / 65536 % 256, n / 256 % 256, n % 256]

/-- Decoder-side big-endian interpretation of two bytes (spec §3: decoder
agrees with the encoder's network byte order). -/
def readU16 (a b : Nat) : Nat :=
  a * 256 + b

/-- Decoder-side big-endian interpretation of four bytes. -/
def readU32 (a b c d : Nat) : Nat :=
  ((a * 256 + b) * 256 + c) * 256 + d

/-- Modelled from the spec: the `Event` tagged union of §3 (no implementation
exists under `src/`; the drafts there use untyped dictionaries).  Text fields
are UTF-8 byte sequences (`List Nat`); `quantity` is an integer supplied by
the caller (spec §4.1 names "negative quantity" as a caller error the encoder
must reject, so the type admits it); prices carry their IEEE-754 binary32 bit
patterns. -/
inductive Event where
  | LogEvent (level message : List Nat)
  | MatchEvent (side symbol : List Nat) (quantity : Int) (priceBits : Nat)
  | PriceUpdateEvent (symbol : List Nat) (oldPriceBits newPriceBits : Nat)
deriving DecidableEq, Repr

/-- Tag byte selecting the variant on the wire (spec §6: 1 = Log, 2 = Match,
3 = PriceUpdate). -/
def Event.tagByte : Event → Nat
  | .LogEvent _ _ => 1
  | .MatchEvent _ _ _ _ => 2
  | .PriceUpdateEvent _ _ _ => 3

/-- Variable-length text fields of an event, in the wire's field order
(spec §6). -/
def Event.textFields : Event → List (List Nat)
  | .LogEvent level message => [level, message]
  | .MatchEvent side symbol _ _ => [side, symbol]
  | .PriceUpdateEvent symbol _ _ => [symbol]

/-- Fixed-width numeric payload of an event's header, after the length
fields, in the wire's field order (spec §6). -/
def Event.numericBytes : Event → List Nat
  | .LogEvent _ _ => []
  | .MatchEvent _ _ quantity priceBits => u32be quantity.toNat ++ u32be priceBits
  | .PriceUpdateEvent _ oldPriceBits newPriceBits => u32be oldPriceBits ++ u32be newPriceBits

/-- Numeric field outside the representable range of its fixed width
(spec §4.1 failure clause: e.g. a negative quantity). -/
def Event.numericOutOfRange : Event → Bool
  | .LogEvent _ _ => false
  | .MatchEvent _ _ quantity priceBits =>
      quantity < 0 || 4294967296 ≤ quantity || 4294967296 ≤ priceBits
  | .PriceUpdateEvent _ oldPriceBits newPriceBits =>
      4294967296 ≤ oldPriceBits || 4294967296 ≤ newPriceBits

/-- Encoder failure taxonomy (spec §7: `EncodeError`). -/
inductive EncodeError where
  | oversizedText
  | outOfRangeNumeric
deriving DecidableEq, Repr

/-- Modelled from the spec: `encode(event) -> byte sequence` (§4.1, wire
layouts §6; no implementation exists under `src/`).  Emits the tag byte,
then each text field's byte length as a big-endian `u16`, then the
fixed-width numerics, then the text bytes.  Fails with an `EncodeError` when
a text field exceeds the length field's capacity or a numeric field is out
of its fixed-width range; on failure no bytes are produced. -/
def encode : Event → Except EncodeError (List Nat)
  | .LogEvent level message =>
      if 65535 < level.length ∨ 65535 < message.length then
        .error .oversizedText
      else
        .ok (1 :: (u16be level.length ++ u16be message.length ++ level ++ message))
  | .MatchEvent side symbol quantity priceBits =>
      if 65535 < side.length ∨ 65535 < symbol.length then
        .error .oversizedText
      else if quantity < 0 ∨ 4294967296 ≤ quantity ∨ 4294967296 ≤ priceBits then
        .error .outOfRangeNumeric
      else
        .ok (2 :: (u16be side.length ++ u16be symbol.length ++
              u32be quantity.toNat ++ u32be priceBits ++ side ++ symbol))
  | .PriceUpdateEvent symbol oldPriceBits newPriceBits =>
      if 65535 < symbol.length then
        .error .oversizedText
      else if 4294967296 ≤ oldPriceBits ∨ 4294967296 ≤ newPriceBits then
        .error .outOfRangeNumeric
      else
        .ok (3 :: (u16be symbol.length ++ u32be oldPriceBits ++ u32be newPriceBits ++ symbol))

/-- Bytes actually handed to the transport for an encode result: a failed
encode leaves nothing to write (spec §4.1: the encoder never emits a partial
frame on failure). -/
def emittedBytes : Except EncodeError (List Nat) → List Nat
  | .ok bs => bs
  | .error _ => []

/-- Modelled from the spec: the reusable "read exactly `n` bytes" primitive
of §4.2 — yields the bytes and the remainder only when the buffer already
holds at least `n` bytes, and nothing otherwise. -/
def readExact (n : Nat) (bs : List Nat) : Option (List Nat × List Nat) :=
  if n ≤ bs.length then some (bs.take n, bs.drop n) else none

/-- Size of the fixed-width header that follows a tag byte (spec §4.2
AwaitingHeader: two `u16` lengths for Log; `u16`+`u16`+`u32`+`f32` for
Match; `u16`+`f32`+`f32` for PriceUpdate). -/
def headerSize (tag : Nat) : Nat :=
  if tag = 1 then 4 else if tag = 2 then 12 else 10

/-- Total payload length declared by a frame's header (spec §4.2
AwaitingPayload: the sum of the text-field lengths decoded from the
header). -/
def payloadLength (tag : Nat) (header : List Nat) : Nat :=
  if tag = 3 then
    match header with
    | a :: b :: _ => readU16 a b
    | _ => 0
  else
    match header with
    | a :: b :: c :: d :: _ => readU16 a b + readU16 c d
    | _ => 0

/-- Construction of the typed event from tag, header and payload bytes
(spec §4.2 Complete: slice the payload by the header's lengths, in field
order). -/
def buildEvent (tag : Nat) (header payload : List Nat) : Event :=
  if tag = 1 then
    match header with
    | a :: b :: c :: d :: _ =>
        .LogEvent (payload.take (readU16 a b)) ((payload.drop (readU16 a b)).take (readU16 c d))
    | _ => .LogEvent [] []
  else if tag = 2 then
    match header with
    | a :: b :: c :: d :: q3 :: q2 :: q1 :: q0 :: p3 :: p2 :: p1 :: p0 :: _ =>
        .MatchEvent (payload.take (readU16 a b))
          ((payload.drop (readU16 a b)).take (readU16 c d))
          ((readU32 q3 q2 q1 q0 : Nat) : Int) (readU32 p3 p2 p1 p0)
    | _ => .MatchEvent [] [] 0 0
  else
    match header with
    | a :: b :: o3 :: o2 :: o1 :: o0 :: m3 :: m2 :: m1 :: m0 :: _ =>
        .PriceUpdateEvent (payload.take (readU16 a b)) (readU32 o3 o2 o1 o0)
          (readU32 m3 m2 m1 m0)
    | _ => .PriceUpdateEvent [] 0 0

/-- Modelled from the spec: the Decoder's state (§4.2) — bytes fed by the
transport but not yet consumed as a frame. -/
structure Decoder where
  buffer : List Nat
deriving DecidableEq, Repr

/-- A fresh Decoder for a new connection (spec §4.2). -/
def Decoder.empty : Decoder := ⟨[]⟩

/-- feed(chunk): accumulate arriving bytes; interpretation happens only in
`Decoder.poll`, never here (spec §4.2: partial bytes are buffered, the read
is retried on the next chunk arrival). -/
def Decoder.feed (d : Decoder) (chunk : List Nat) : Decoder :=
  ⟨d.buffer ++ chunk⟩

/-- Outcome of examining the buffered bytes for one frame (spec §4.2). -/
inductive PollResult where
  | needMoreBytes
  | protocolError
  | frame (e : Event) (rest : List Nat)
deriving DecidableEq, Repr

/-- Modelled from the spec: one pass of the Decoder's per-frame state
machine (§4.2) over the buffered bytes.  AwaitingTag reads exactly one byte
and rejects a tag outside {1,2,3} before touching anything further;
AwaitingHeader reads exactly the tag's fixed-width header; AwaitingPayload
reads exactly the declared payload; otherwise the decoder reports that it
needs more bytes and interprets nothing. -/
def Decoder.poll (d : Decoder) : PollResult :=
  match readExact 1 d.buffer with
  | none => .needMoreBytes
  | some (tagBytes, afterTag) =>
    let tag := tagBytes.getD 0 0
    if tag = 1 ∨ tag = 2 ∨ tag = 3 then
      match readExact (headerSize tag) afterTag with
      | none => .needMoreBytes
      | some (header, afterHeader) =>
        match readExact (payloadLength tag header) afterHeader with
        | none => .needMoreBytes
        | some (payload, rest) => .frame (buildEvent tag header payload) rest
    else .protocolError

/-- Decoder failure taxonomy (spec §7): an unknown tag is a `ProtocolError`;
a transport that closes mid-frame is an `IncompleteFrameError`. -/
inductive DecodeError where
  | protocolError
  | incompleteFrame
deriving DecidableEq, Repr

/-- Modelled from the spec: decoding one frame from the front of a closed
stream (§4.2).  Since no further bytes can arrive, a state machine still
waiting for bytes is a mid-frame end of stream: `IncompleteFrameError`, and
no partial Event is surfaced. -/
def decodeFrame (bs : List Nat) : Except DecodeError (Event × List Nat) :=
  match (Decoder.empty.feed bs).poll with
  | .frame e rest => .ok (e, rest)
  | .protocolError => .error .protocolError
  | .needMoreBytes => .error .incompleteFrame

theorem readExact_of_le {n : Nat} {bs : List Nat} (h : n ≤ bs.length) :
    readExact n bs = some (bs.take n, bs.drop n) := by
  simp [readExact, h]

theorem readExact_of_lt {n : Nat} {bs : List Nat} (h : bs.length < n) :
    readExact n bs = none := by
  simp [readExact]
  omega

theorem readExact_some {n : Nat} {bs x y : List Nat}
    (h : readExact n bs = some (x, y)) :
    n ≤ bs.length ∧ x = bs.take n ∧ y = bs.drop n := by
  by_cases hle : n ≤ bs.length
  · rw [readExact_of_le hle] at h
    exact ⟨hle, by injection h with h'; injection h' with h1 h2; exact h1.symm,
      by injection h with h'; injection h' with h1 h2; exact h2.symm⟩
  · rw [readExact_of_lt (by omega)] at h
    exact absurd h (by simp)

theorem readExact_exact {n : Nat} (l t : List Nat) (h : l.length = n) :
    readExact n (l ++ t) = some (l, t) := by
  subst h
  rw [readExact_of_le (by simp)]
  rw [List.take_left, List.drop_left]

theorem u16_round {n : Nat} (h : n < 65536) :
    readU16 (n / 256 % 256) (n % 256) = n := by
  simp only [readU16]
  omega

theorem u32_round {n : Nat} (h : n < 4294967296) :
    readU32 (n / 16777216 % 256) (n / 65536 % 256) (n / 256 % 256) (n % 256) = n := by
  simp only [readU32]
  omega

theorem feed_empty (bs : List Nat) : Decoder.empty.feed bs = ⟨bs⟩ := by
  simp [Decoder.feed, Decoder.empty]

theorem feed_feed (d : Decoder) (a b : List Nat) :
    (d.feed a).feed b = d.feed (a ++ b) := by
  simp [Decoder.feed]

theorem foldl_feed (chunks : List (List Nat)) (d : Decoder) :
    chunks.foldl Decoder.feed d = d.feed chunks.flatten := by
  induction chunks generalizing d with
  | nil => simp [Decoder.feed]
  | cons c cs ih =>
      simp only [List.foldl_cons, List.flatten_cons, ih, feed_feed]

theorem poll_frame_inv {bs : List Nat} {e : Event} {rest : List Nat}
    (h : Decoder.poll ⟨bs⟩ = .frame e rest) :
    ∃ tag H L,
      tag = (bs.take 1).getD 0 0 ∧
      (tag = 1 ∨ tag = 2 ∨ tag = 3) ∧
      H = headerSize tag ∧
      L = payloadLength tag ((bs.drop 1).take H) ∧
      1 + H + L ≤ bs.length ∧
      e = buildEvent tag ((bs.drop 1).take H) (((bs.drop 1).drop H).take L) ∧
      rest = ((bs.drop 1).drop H).drop L := by
  unfold Decoder.poll at h
  cases h1 : readExact 1 bs with
  | none => rw [h1] at h; simp at h
  | some p =>
    obtain ⟨tagBytes, afterTag⟩ := p
    rw [h1] at h
    simp only at h
    obtain ⟨hle1, htag, hdrop1⟩ := readExact_some h1
    by_cases hvalid : tagBytes.getD 0 0 = 1 ∨ tagBytes.getD 0 0 = 2 ∨ tagBytes.getD 0 0 = 3
    · rw [if_pos hvalid] at h
      cases h2 : readExact (headerSize (tagBytes.getD 0 0)) afterTag with
      | none => rw [h2] at h; simp at h
      | some q =>
        obtain ⟨header, afterHeader⟩ := q
        rw [h2] at h
        simp only at h
        obtain ⟨hle2, hheader, hdrop2⟩ := readExact_some h2
        cases h3 : readExact (payloadLength (tagBytes.getD 0 0) header) afterHeader with
        | none => rw [h3] at h; simp at h
        | some r =>
          obtain ⟨payload, rest'⟩ := r
          rw [h3] at h
          simp only [PollResult.frame.injEq] at h
          obtain ⟨hle3, hpayload, hdrop3⟩ := readExact_some h3
          subst htag hdrop1 hheader hdrop2 hpayload hdrop3
          obtain ⟨hbuild, hrest⟩ := h
          simp only [List.length_drop] at hle2 hle3
          exact ⟨_, _, _, rfl, hvalid, rfl, rfl, by omega, hbuild.symm, hrest.symm⟩
    · rw [if_neg hvalid] at h
      simp at h

theorem poll_frame_eq (tag : Nat) (header payload rest : List Nat)
    (hvalid : tag = 1 ∨ tag = 2 ∨ tag = 3)
    (hH : header.length = headerSize tag)
    (hL : payload.length = payloadLength tag header) :
    Decoder.poll ⟨tag :: (header ++ payload ++ rest)⟩ =
      .frame (buildEvent tag header payload) rest := by
  unfold Decoder.poll
  have h1 : readExact 1 (tag :: (header ++ payload ++ rest)) =
      some ([tag], header ++ payload ++ rest) := readExact_exact [tag] _ rfl
  rw [h1]
  simp only [List.getD_cons_zero, List.append_assoc]
  rw [if_pos hvalid]
  simp only [readExact_exact header (payload ++ rest) hH,
    readExact_exact payload rest hL]

theorem poll_take_needMore {bs : List Nat} {e : Event}
    (h : Decoder.poll ⟨bs⟩ = .frame e []) :
    ∀ k, k < bs.length → Decoder.poll ⟨bs.take k⟩ = .needMoreBytes := by
  obtain ⟨tag, H, L, htag, hvalid, hH, hL, hlen, -, hrest⟩ := poll_frame_inv h
  have htotal : bs.length = 1 + H + L := by
    have h0 : (((bs.drop 1).drop H).drop L).length = 0 := by rw [← hrest]; simp
    simp only [List.length_drop] at h0
    omega
  intro k hk
  rcases Nat.eq_zero_or_pos k with rfl | hkpos
  · unfold Decoder.poll
    rw [List.take_zero, readExact_of_lt (by simp)]
  · unfold Decoder.poll
    have hlenk : (bs.take k).length = k := by
      simp only [List.length_take]; omega
    rw [@readExact_of_le 1 (bs.take k) (by omega)]
    simp only [List.take_take, List.drop_take]
    rw [Nat.min_eq_left hkpos]
    have htag1 : (bs.take 1).getD 0 0 = tag := htag.symm
    rw [htag1, if_pos hvalid, ← hH]
    rcases Nat.lt_or_ge (k - 1) H with hkH | hkH
    · rw [@readExact_of_lt H ((bs.drop 1).take (k - 1))
        (by simp only [List.length_take, List.length_drop]; omega)]
    · rw [@readExact_of_le H ((bs.drop 1).take (k - 1))
        (by simp only [List.length_take, List.length_drop]; omega)]
      simp only [List.take_take, List.drop_take]
      rw [Nat.min_eq_left hkH, ← hL]
      rw [@readExact_of_lt L (((bs.drop 1).drop H).take (k - 1 - H))
        (by simp only [List.length_take, List.length_drop]; omega)]

theorem decodeFrame_ok_length {bs : List Nat} {e : Event} {rest : List Nat}
    (h : decodeFrame bs = .ok (e, rest)) : rest.length < bs.length := by
  have hp : Decoder.poll ⟨bs⟩ = .frame e rest := by
    unfold decodeFrame at h
    rw [feed_empty] at h
    cases hp : Decoder.poll ⟨bs⟩ <;> rw [hp] at h <;> simp_all
  obtain ⟨tag, H, L, -, -, -, -, hlen, -, hrest⟩ := poll_frame_inv hp
  have : rest.length = bs.length - 1 - H - L := by
    rw [hrest]; simp only [List.length_drop]
  omega

/-- Modelled from the spec: draining a closed stream frame by frame
(§4.2: a lazy sequential stream of decoded Events, ending at transport
close).  An empty remainder is a clean end of stream; a decode error stops
the connection with no further events (spec §7: no resynchronization, the
connection is terminated). -/
def decodeStream (bs : List Nat) : List Event × Option DecodeError :=
  if _hbs : bs = [] then ([], none)
  else
    match hm : decodeFrame bs with
    | .error err => ([], some err)
    | .ok (e, rest) =>
        have : rest.length < bs.length := decodeFrame_ok_length hm
        (e :: (decodeStream rest).1, (decodeStream rest).2)
termination_by bs.length

theorem decodeStream_nil : decodeStream [] = ([], none) := by
  unfold decodeStream
  simp

theorem decodeStream_error {bs : List Nat} {err : DecodeError}
    (hbs : bs ≠ []) (h : decodeFrame bs = .error err) :
    decodeStream bs = ([], some err) := by
  unfold decodeStream
  rw [dif_neg hbs]
  split
  · rename_i err' heq
    rw [h] at heq
    simp only [Except.error.injEq] at heq
    subst heq
    rfl
  · rename_i e' rest' heq
    rw [h] at heq
    exact absurd heq (by simp)

theorem decodeStream_ok {bs : List Nat} {e : Event} {rest : List Nat}
    (hbs : bs ≠ []) (h : decodeFrame bs = .ok (e, rest)) :
    decodeStream bs = (e :: (decodeStream rest).1, (decodeStream rest).2) := by
  conv_lhs => unfold decodeStream
  rw [dif_neg hbs]
  split
  · rename_i err' heq
    rw [h] at heq
    exact absurd heq (by simp)
  · rename_i e' rest' heq
    rw [h] at heq
    simp only [Except.ok.injEq, Prod.mk.injEq] at heq
    obtain ⟨rfl, rfl⟩ := heq
    rfl

end Protocol

namespace Python

/-- Python values as they occur in the two scripts: integers, `str` text,
`bytes`, and floats.  A float's payload is the IEEE-754 binary32 bit
pattern that `struct.pack` with code `f` would emit for it; only the
constructor (the runtime type) matters to `struct`'s type checks. -/
inductive PyVal where
  | int (n : Int)
  | str (s : String)
  | bytes (b : List Nat)
  | float (bits : Nat)
deriving DecidableEq, Repr

/-- Failure modes of `struct.pack` relevant here: the number of supplied
values differs from what the format string requires, a value has the wrong
runtime type for its format code, or an integer is out of range. -/
inductive StructError where
  | wrongArgCount
  | wrongArgType
  | argOutOfRange
deriving DecidableEq, Repr

/-- Format codes occurring in the scripts' format strings (`'!B3s'`,
`'!Bssisf'`, `'!Bssff'`): `B` unsigned byte, `sN n` a byte string padded or
truncated to exactly `n` bytes (`s` alone is `1s`), `iI` a 32-bit signed
integer, `fF` a 32-bit float.  The leading `!` selects network (big-endian)
byte order for all of them. -/
inductive FmtCode where
  | uB
  | sN (n : Nat)
  | iI
  | fF
deriving DecidableEq, Repr

/-- Semantics of packing one value under one format code, per the Python
`struct` module: `B` requires an `int` in `[0, 256)`; `s` requires a `bytes`
object (a `str` raises `struct.error`) and pads with zero bytes or truncates
to the fixed width; `i` requires an `int` in the signed 32-bit range, laid
out big-endian two's-complement; `f` emits the float's binary32 bits
big-endian.  Any other value type for a code raises `struct.error`. -/
def packCode : FmtCode → PyVal → Except StructError (List Nat)
  | .uB, .int n =>
      if 0 ≤ n ∧ n < 256 then .ok [n.toNat] else .error .argOutOfRange
  | .sN n, .bytes b => .ok (b.take n ++ List.replicate (n - b.length) 0)
  | .iI, .int n =>
      if -2147483648 ≤ n ∧ n < 2147483648 then .ok (Protocol.u32be (n.emod 4294967296).toNat)
      else .error .argOutOfRange
  | .fF, .float bits => .ok (Protocol.u32be (bits % 4294967296))
  | _, _ => .error .wrongArgType

/-- Packing a list of (code, value) pairs left to right, concatenating the
emitted bytes and stopping at the first failing code. -/
def packAll : List (FmtCode × PyVal) → Except StructError (List Nat)
  | [] => .ok []
  | (c, v) :: rest =>
      match packCode c v with
      | .error err => .error err
      | .ok bs =>
          match packAll rest with
          | .error err => .error err
          | .ok bss => .ok (bs ++ bss)

/-- Semantics of `struct.pack(fmt, *args)`: the argument count must match
the number of format codes exactly (otherwise `struct.error`, checked before
any value is examined), then each value is packed under its code. -/
def structPack (fmt : List FmtCode) (args : List PyVal) : Except StructError (List Nat) :=
  if fmt.length ≠ args.length then .error .wrongArgCount
  else packAll (fmt.zip args)

/-- The mock events hard-coded in `sender.py` lines 6-16 (`mock_data`).
Fields mirror the dictionaries; float entries carry the binary32 bit
pattern of the literal, noted alongside. -/
inductive MockEvent where
  | log (level message : String)
  | matchEv (side : String) (quantity : Int) (symbol : String) (price : Nat)
  | priceUpdate (symbol : String) (oldPrice newPrice : Nat)
deriving DecidableEq, Repr

/-- `mock_data` from `sender.py` lines 6-16.  Bit patterns: 67203.00 =
0x47834180, 67210.50 = 0x47834540, 3212.45 = 0x4548C733, 3217.10 =
0x4549119A, 528.75 = 0x44043000, 529.00 = 0x44044000, 172.34 = 0x432C570A,
67200.00 = 0x47834000, 187.90 = 0x433BE666. -/
def mockData : List MockEvent :=
  [ .priceUpdate "BTC/USD" 1199784320 1199785280,
    .priceUpdate "ETH/USD" 1162397491 1162416538,
    .priceUpdate "SPY" 1141125120 1141129216,
    .matchEv "BUY" 100 "AAPL" 1126979338,
    .matchEv "SELL" 5 "BTC" 1199783936,
    .matchEv "BUY" 50 "TSLA" 1127999078,
    .log "INFO" "TCP server started on port 9001",
    .log "DEBUG" "Received order: ID#14352 (BUY 25 ETH @ $3,200)",
    .log "INFO" "Trade executed: Order#14352 matched with Order#14349" ]

/-- The sender's encode step, `sender.py` lines 47-76: each branch calls
`struct.pack` with the branch's format string and arguments exactly as
written in the source.  The log branch passes four values
(`1, log_type, level, message`) against the two-code format `'!B3s'`; the
match branch passes `2, "match", side, quantity, symbol, price` against
`'!Bssisf'`; the price-update branch passes `3, "price_update", symbol,
old_price, new_price` against `'!Bssff'`.  Every text argument is a Python
`str` (never `bytes`). -/
def senderPack : MockEvent → Except StructError (List Nat)
  | .log level message =>
      structPack [.uB, .sN 3]
        [.int 1, .str "log", .str level, .str message]
  | .matchEv side quantity symbol price =>
      structPack [.uB, .sN 1, .sN 1, .iI, .sN 1, .fF]
        [.int 2, .str "match", .str side, .int quantity, .str symbol, .float price]
  | .priceUpdate symbol oldPrice newPrice =>
      structPack [.uB, .sN 1, .sN 1, .fF, .fF]
        [.int 3, .str "price_update", .str symbol, .float oldPrice, .float newPrice]

/-- Attribute names of Python 3 `bytes` objects (the type of the value
`socket.recv` returns): the methods of the `bytes` data type.  Unpacking
binary data is done by module-level functions of the `struct` module;
`bytes` itself offers no `unpack` attribute. -/
def bytesMethods : List String :=
  [ "capitalize", "center", "count", "decode", "endswith", "expandtabs",
    "find", "fromhex", "hex", "index", "isalnum", "isalpha", "isascii",
    "isdigit", "islower", "isspace", "istitle", "isupper", "join", "ljust",
    "lower", "lstrip", "maketrans", "partition", "removeprefix",
    "removesuffix", "replace", "rfind", "rindex", "rjust", "rpartition",
    "rsplit", "rstrip", "split", "splitlines", "startswith", "strip",
    "swapcase", "title", "translate", "upper", "zfill" ]

/-- Attribute lookup on a `bytes` object: accessing a name outside the
type's attributes raises `AttributeError`. -/
def bytesHasAttr (name : String) : Bool :=
  bytesMethods.contains name

/-- Outcome of one iteration of the receiver loop. -/
inductive RecvOutcome where
  | breakLoop
  | pyError (name : String)
  | printedEvent
deriving DecidableEq, Repr

/-- One iteration of the receiver loop, `receiver.py` lines 59-85, on the
chunk `recv` returned: an empty chunk breaks the loop (line 61); otherwise
line 63 evaluates `buffer.unpack("!B", buffer)`, an attribute access on the
`bytes` chunk, before any of the tag branches at lines 65-85 can run.  The
`printedEvent` arm stands for those branches; it is reachable only if
`bytes` had an `unpack` attribute. -/
def receiverStep (buffer : List Nat) : RecvOutcome :=
  if buffer.isEmpty then .breakLoop
  else if bytesHasAttr "unpack" then .printedEvent
  else .pyError "AttributeError"

end Python

end Orderbook

open Orderbook Orderbook.Protocol Orderbook.Python

/-- C3: encoding `MatchEvent{side:"BUY", symbol:"AAPL", quantity:100,
price:172.34}` produces exactly the byte sequence `02 0003 0004 00000064
<f32:172.34> "BUY" "AAPL"` — tag byte 2, two big-endian u16 lengths,
big-endian u32 quantity, big-endian f32 price, then the side and symbol
bytes — and decoding that exact sequence reproduces the event.  Here
`1126979338 = 0x432C570A` is the IEEE-754 binary32 bit pattern of 172.34,
so `<f32:172.34>` is the bytes `67 44 87 10` (hex `43 2C 57 0A`); `"BUY"`
is `66 85 89` and `"AAPL"` is `65 65 80 76` in UTF-8. -/
theorem claim_C3_concrete_match_frame :
    encode (.MatchEvent [66, 85, 89] [65, 65, 80, 76] 100 1126979338) =
      .ok [2, 0, 3, 0, 4, 0, 0, 0, 100, 67, 44, 87, 10, 66, 85, 89, 65, 65, 80, 76] ∧
    decodeFrame [2, 0, 3, 0, 4, 0, 0, 0, 100, 67, 44, 87, 10, 66, 85, 89, 65, 65, 80, 76] =
      .ok (.MatchEvent [66, 85, 89] [65, 65, 80, 76] 100 1126979338, []) :=
  ⟨rfl, rfl⟩

/-- C5: a frame whose first byte is not one of {1,2,3} — for example a
stream beginning with byte 0x09 — fails decoding with a ProtocolError
before any payload bytes are consumed (the error is the same for every
continuation of the stream), and the decoder aborts the connection (the
stream yields no events at all) rather than scanning forward or reading
further frames. -/
theorem claim_C5_unknown_tag (b : Nat) (rest : List Nat)
    (h : ¬(b = 1 ∨ b = 2 ∨ b = 3)) :
    decodeFrame (b :: rest) = .error .protocolError ∧
    decodeStream (b :: rest) = ([], some .protocolError) := by
  have hframe : decodeFrame (b :: rest) = .error .protocolError := by
    unfold decodeFrame
    rw [feed_empty]
    unfold Decoder.poll
    rw [show readExact 1 (b :: rest) = some ([b], rest) from readExact_exact [b] rest rfl]
    simp only [List.getD_cons_zero]
    rw [if_neg h]
  exact ⟨hframe, decodeStream_error (by simp) hframe⟩

/-- C5 witness: a stream beginning with 0x09, even when a complete valid
Log frame follows the corrupt byte, yields no events. -/
theorem claim_C5_unknown_tag_witness :
    decodeFrame (9 :: [1, 0, 1, 0, 1, 65, 66]) = .error .protocolError ∧
    decodeStream (9 :: [1, 0, 1, 0, 1, 65, 66]) = ([], some .protocolError) :=
  claim_C5_unknown_tag 9 [1, 0, 1, 0, 1, 65, 66] (by decide)

/-- C6: a stream carrying a valid tag and a complete header but ending
before the full declared payload length has been delivered fails with an
IncompleteFrameError, the stream yields no events (the connection is
terminated), and no partial Event is ever surfaced. -/
theorem claim_C6_truncated_stream (tag : Nat) (body : List Nat)
    (hvalid : tag = 1 ∨ tag = 2 ∨ tag = 3)
    (hheader : headerSize tag ≤ body.length)
    (hshort : body.length < headerSize tag + payloadLength tag (body.take (headerSize tag))) :
    decodeFrame (tag :: body) = .error .incompleteFrame ∧
    decodeStream (tag :: body) = ([], some .incompleteFrame) := by
  have hframe : decodeFrame (tag :: body) = .error .incompleteFrame := by
    unfold decodeFrame
    rw [feed_empty]
    unfold Decoder.poll
    rw [show readExact 1 (tag :: body) = some ([tag], body) from readExact_exact [tag] body rfl]
    simp only [List.getD_cons_zero]
    rw [if_pos hvalid]
    rw [@readExact_of_le (headerSize tag) body hheader]
    simp only
    rw [@readExact_of_lt (payloadLength tag (body.take (headerSize tag))) (body.drop (headerSize tag))
      (by simp only [List.length_drop]; omega)]
  exact ⟨hframe, decodeStream_error (by simp) hframe⟩

/-- C6 witness: tag 1 (Log) with a complete header declaring a one-byte
level and a one-byte message, but no payload delivered. -/
theorem claim_C6_truncated_stream_witness :
    decodeFrame (1 :: [0, 1, 0, 1]) = .error .incompleteFrame ∧
    decodeStream (1 :: [0, 1, 0, 1]) = ([], some .incompleteFrame) :=
  claim_C6_truncated_stream 1 [0, 1, 0, 1] (by decide) (by decide) (by decide)

/-- C9: for every event in the sender's mock-data set, the sender's
`struct.pack` call raises `struct.error` — the log branch because the format
`'!B3s'` takes two values and four are passed (wrong argument count, checked
before any value), the match and price_update branches because Python `str`
values are passed where the `s` format code requires `bytes` — so the
sender's encode step fails for every input and never produces a frame
buffer. -/
theorem claim_C9_sender_pack_always_fails (e : MockEvent) (h : e ∈ mockData) :
    senderPack e = .error .wrongArgCount ∨ senderPack e = .error .wrongArgType := by
  fin_cases h
  · exact Or.inr rfl
  · exact Or.inr rfl
  · exact Or.inr rfl
  · exact Or.inr rfl
  · exact Or.inr rfl
  · exact Or.inr rfl
  · exact Or.inl rfl
  · exact Or.inl rfl
  · exact Or.inl rfl

/-- C9 witness: the first mock event (a price update). -/
theorem claim_C9_sender_pack_always_fails_witness :
    senderPack (.priceUpdate "BTC/USD" 1199784320 1199785280) = .error .wrongArgCount ∨
    senderPack (.priceUpdate "BTC/USD" 1199784320 1199785280) = .error .wrongArgType :=
  claim_C9_sender_pack_always_fails _ (by simp [mockData])

/-- C10: for every non-empty chunk obtained from `recv`, the receiver's
tag-extraction step `buffer.unpack("!B", buffer)` is an attribute access on
a `bytes` object, which has no `unpack` attribute, so the decode step
raises `AttributeError` before any variant branch is selected; the receiver
therefore never decodes and prints an event from a non-empty chunk. -/
theorem claim_C10_receiver_attribute_error (buffer : List Nat) (h : buffer ≠ []) :
    receiverStep buffer = .pyError "AttributeError" := by
  unfold receiverStep
  rw [if_neg (by simpa using h)]
  rw [if_neg (by decide)]

/-- C10 witness: a one-byte chunk carrying the Match tag. -/
theorem claim_C10_receiver_attribute_error_witness :
    receiverStep [2] = .pyError "AttributeError" :=
  claim_C10_receiver_attribute_error [2] (by decide)

/-- C2: for any frame byte sequence and any way of splitting it into one or
more non-empty sub-chunks, feeding the sub-chunks to the Decoder in order
yields the same decode result as feeding the whole sequence at once; and
the decoder never interprets bytes before it has buffered the complete unit
it is waiting for — on every strict prefix of a byte sequence that decodes
to exactly one frame, the decoder only reports that it needs more bytes. -/
theorem claim_C2_chunking_invariance (chunks : List (List Nat)) (bs : List Nat)
    (hjoin : chunks.flatten = bs) (_hchunks : chunks ≠ [])
    (_hne : ∀ c ∈ chunks, c ≠ []) :
    (chunks.foldl Decoder.feed Decoder.empty).poll = (Decoder.empty.feed bs).poll ∧
    (∀ e, (Decoder.empty.feed bs).poll = .frame e [] →
      ∀ k, k < bs.length → (Decoder.empty.feed (bs.take k)).poll = .needMoreBytes) := by
  constructor
  · rw [foldl_feed, hjoin]
  · intro e he k hk
    rw [feed_empty] at he ⊢
    exact poll_take_needMore he k hk

/-- C2 witness: the Log frame `01 0001 0001 "A" "B"` split into two
non-empty chunks. -/
theorem claim_C2_chunking_invariance_witness :
    ([[1, 0, 1], [0, 1, 65, 66]].foldl Decoder.feed Decoder.empty).poll =
      (Decoder.empty.feed [1, 0, 1, 0, 1, 65, 66]).poll ∧
    (∀ e, (Decoder.empty.feed [1, 0, 1, 0, 1, 65, 66]).poll = .frame e [] →
      ∀ k, k < ([1, 0, 1, 0, 1, 65, 66] : List Nat).length →
        (Decoder.empty.feed (([1, 0, 1, 0, 1, 65, 66] : List Nat).take k)).poll =
          .needMoreBytes) :=
  claim_C2_chunking_invariance [[1, 0, 1], [0, 1, 65, 66]] [1, 0, 1, 0, 1, 65, 66]
    (by decide) (by decide) (by decide)

/-- C4: for every Event variant, the encoder's output is the tag byte, then
— before any text byte — one explicit unsigned 2-byte length field per text
field holding that field's exact byte length, then the fixed-width
numerics, then every text field's bytes in full and in order: no text field
is emitted in a fixed-width or null-terminated slot. -/
theorem claim_C4_explicit_length_fields (e : Event) (bs : List Nat)
    (h : encode e = .ok bs) :
    bs = e.tagByte ::
      ((e.textFields.map (fun f => u16be f.length)).flatten ++
        e.numericBytes ++ e.textFields.flatten) := by
  cases e with
  | LogEvent level message =>
      simp only [encode] at h
      split at h
      · exact absurd h (by simp)
      · injection h with h
        subst h
        simp [Event.tagByte, Event.textFields, Event.numericBytes, List.append_assoc]
  | MatchEvent side symbol quantity priceBits =>
      simp only [encode] at h
      split at h
      · exact absurd h (by simp)
      · split at h
        · exact absurd h (by simp)
        · injection h with h
          subst h
          simp [Event.tagByte, Event.textFields, Event.numericBytes, List.append_assoc]
  | PriceUpdateEvent symbol oldPriceBits newPriceBits =>
      simp only [encode] at h
      split at h
      · exact absurd h (by simp)
      · split at h
        · exact absurd h (by simp)
        · injection h with h
          subst h
          simp [Event.tagByte, Event.textFields, Event.numericBytes, List.append_assoc]

/-- C4 witness: the Match frame of the concrete scenario decomposes into
tag, length fields, numerics, and the untruncated text bytes. -/
theorem claim_C4_explicit_length_fields_witness :
    [2, 0, 3, 0, 4, 0, 0, 0, 100, 67, 44, 87, 10, 66, 85, 89, 65, 65, 80, 76] =
      (Event.MatchEvent [66, 85, 89] [65, 65, 80, 76] 100 1126979338).tagByte ::
      (((Event.MatchEvent [66, 85, 89] [65, 65, 80, 76] 100 1126979338).textFields.map
          (fun f => u16be f.length)).flatten ++
        (Event.MatchEvent [66, 85, 89] [65, 65, 80, 76] 100 1126979338).numericBytes ++
        (Event.MatchEvent [66, 85, 89] [65, 65, 80, 76] 100 1126979338).textFields.flatten) :=
  claim_C4_explicit_length_fields (.MatchEvent [66, 85, 89] [65, 65, 80, 76] 100 1126979338)
    _ rfl

/-- C7: for every event with a text field longer than the 2-byte length
field's capacity (65535 bytes) or a numeric field outside the representable
range of its fixed width (for example a negative quantity), `encode`
reports an EncodeError, and on failure the encoder emits no bytes at all —
a failed encode leaves nothing to be written to the stream. -/
theorem claim_C7_encode_failure (e : Event)
    (h : (∃ f ∈ e.textFields, 65535 < f.length) ∨ e.numericOutOfRange = true) :
    (encode e = .error .oversizedText ∨ encode e = .error .outOfRangeNumeric) ∧
    emittedBytes (encode e) = [] := by
  have herr : encode e = .error .oversizedText ∨ encode e = .error .outOfRangeNumeric := by
    cases e with
    | LogEvent level message =>
        simp only [Event.textFields, Event.numericOutOfRange] at h
        have htext : 65535 < level.length ∨ 65535 < message.length := by
          rcases h with h | h
          · obtain ⟨f, hf, hlen⟩ := h
            simp only [List.mem_cons, List.mem_singleton, List.not_mem_nil, or_false] at hf
            rcases hf with rfl | rfl
            · exact Or.inl hlen
            · exact Or.inr hlen
          · simp at h
        exact Or.inl (by simp only [encode]; rw [if_pos htext])
    | MatchEvent side symbol quantity priceBits =>
        simp only [Event.textFields, Event.numericOutOfRange] at h
        by_cases htext : 65535 < side.length ∨ 65535 < symbol.length
        · exact Or.inl (by simp only [encode]; rw [if_pos htext])
        · have hnum : quantity < 0 ∨ 4294967296 ≤ quantity ∨ 4294967296 ≤ priceBits := by
            rcases h with h | h
            · obtain ⟨f, hf, hlen⟩ := h
              simp only [List.mem_cons, List.mem_singleton, List.not_mem_nil, or_false] at hf
              rcases hf with rfl | rfl
              · exact absurd (Or.inl hlen) htext
              · exact absurd (Or.inr hlen) htext
            · simp only [Bool.or_eq_true, decide_eq_true_eq] at h
              tauto
          exact Or.inr (by simp only [encode]; rw [if_neg htext, if_pos hnum])
    | PriceUpdateEvent symbol oldPriceBits newPriceBits =>
        simp only [Event.textFields, Event.numericOutOfRange] at h
        by_cases htext : 65535 < symbol.length
        · exact Or.inl (by simp only [encode]; rw [if_pos htext])
        · have hnum : 4294967296 ≤ oldPriceBits ∨ 4294967296 ≤ newPriceBits := by
            rcases h with h | h
            · obtain ⟨f, hf, hlen⟩ := h
              simp only [List.mem_singleton, List.not_mem_nil, or_false] at hf
              subst hf
              exact absurd hlen htext
            · simp only [Bool.or_eq_true, decide_eq_true_eq] at h
              exact h
          exact Or.inr (by simp only [encode]; rw [if_neg htext, if_pos hnum])
  refine ⟨herr, ?_⟩
  rcases herr with h' | h' <;> rw [h'] <;> rfl

/-- C7 witness: a Match event with a negative quantity. -/
theorem claim_C7_encode_failure_witness :
    (encode (.MatchEvent [66, 85, 89] [65, 65, 80, 76] (-1) 0) = .error .oversizedText ∨
      encode (.MatchEvent [66, 85, 89] [65, 65, 80, 76] (-1) 0) =
        .error .outOfRangeNumeric) ∧
    emittedBytes (encode (.MatchEvent [66, 85, 89] [65, 65, 80, 76] (-1) 0)) = [] :=
  claim_C7_encode_failure (.MatchEvent [66, 85, 89] [65, 65, 80, 76] (-1) 0)
    (Or.inr (by decide))

/-- C8: every multi-byte numeric value in a frame — u16 lengths, u32
quantity, f32 price bit patterns — is laid out most-significant byte first
(network/big-endian order) by the encoder's `u16be`/`u32be`, and the
decoder's `readU16`/`readU32` interpret bytes in exactly the same order:
for all field values the byte at index 0 carries the highest place value,
and the two sides are mutually inverse. -/
theorem claim_C8_big_endian_agreement :
    (∀ n, n < 65536 →
      n = (u16be n).getD 0 0 * 256 + (u16be n).getD 1 0) ∧
    (∀ n, n < 65536 →
      readU16 ((u16be n).getD 0 0) ((u16be n).getD 1 0) = n) ∧
    (∀ a b, a < 256 → b < 256 → u16be (readU16 a b) = [a, b]) ∧
    (∀ n, n < 4294967296 →
      n = (u32be n).getD 0 0 * 16777216 + (u32be n).getD 1 0 * 65536 +
        (u32be n).getD 2 0 * 256 + (u32be n).getD 3 0) ∧
    (∀ n, n < 4294967296 →
      readU32 ((u32be n).getD 0 0) ((u32be n).getD 1 0) ((u32be n).getD 2 0)
        ((u32be n).getD 3 0) = n) ∧
    (∀ a b c d, a < 256 → b < 256 → c < 256 → d < 256 →
      u32be (readU32 a b c d) = [a, b, c, d]) := by
  refine ⟨?_, ?_, ?_, ?_, ?_, ?_⟩
  · intro n hn
    simp only [u16be, List.getD_cons_zero, List.getD_cons_succ]
    omega
  · intro n hn
    simp only [u16be, readU16, List.getD_cons_zero, List.getD_cons_succ]
    omega
  · intro a b ha hb
    simp only [u16be, readU16, List.cons.injEq, and_true]
    omega
  · intro n hn
    simp only [u32be, List.getD_cons_zero, List.getD_cons_succ]
    omega
  · intro n hn
    simp only [u32be, readU32, List.getD_cons_zero, List.getD_cons_succ]
    omega
  · intro a b c d ha hb hc hd
    simp only [u32be, readU32, List.cons.injEq, and_true]
    omega

/-- C8 witness: the decomposition at the concrete field values of the C3
scenario — length 4, quantity 100 and the price bits 0x432C570A. -/
theorem claim_C8_big_endian_agreement_witness :
    readU16 ((u16be 4).getD 0 0) ((u16be 4).getD 1 0) = 4 ∧
    u16be (readU16 0 4) = [0, 4] ∧
    readU32 ((u32be 1126979338).getD 0 0) ((u32be 1126979338).getD 1 0)
      ((u32be 1126979338).getD 2 0) ((u32be 1126979338).getD 3 0) = 1126979338 ∧
    u32be (readU32 0 0 0 100) = [0, 0, 0, 100] :=
  ⟨claim_C8_big_endian_agreement.2.1 4 (by decide),
   claim_C8_big_endian_agreement.2.2.1 0 4 (by decide) (by decide),
   claim_C8_big_endian_agreement.2.2.2.2.1 1126979338 (by decide),
   claim_C8_big_endian_agreement.2.2.2.2.2 0 0 0 100 (by decide) (by decide) (by decide)
     (by decide)⟩

/-- C1: for every constructible Event value, decoding the byte sequence
produced by encoding it yields an Event equal to it field-for-field — exact
text bytes, the exact quantity, and the exact price bit patterns (numeric
values within floating-point representation precision) — with the whole
frame consumed. -/
theorem claim_C1_encode_decode_roundtrip (e : Event) (bs : List Nat)
    (h : encode e = .ok bs) : decodeFrame bs = .ok (e, []) := by
  cases e with
  | LogEvent level message =>
      simp only [encode] at h
      split at h
      · exact absurd h (by simp)
      · rename_i hsize
        push_neg at hsize
        obtain ⟨hl, hm⟩ := hsize
        injection h with h
        subst h
        have e1 : readU16 (level.length / 256 % 256) (level.length % 256) = level.length :=
          u16_round (by omega)
        have e2 : readU16 (message.length / 256 % 256) (message.length % 256) = message.length :=
          u16_round (by omega)
        unfold decodeFrame
        rw [feed_empty]
        have hshape : u16be level.length ++ u16be message.length ++ level ++ message =
            (u16be level.length ++ u16be message.length) ++ (level ++ message) ++
              ([] : List Nat) := by
          simp [List.append_assoc]
        rw [hshape]
        rw [poll_frame_eq 1 (u16be level.length ++ u16be message.length) (level ++ message) []
          (Or.inl rfl) (by simp [u16be, headerSize])
          (by simp [payloadLength, u16be, e1, e2])]
        simp only [buildEvent, reduceIte, u16be, List.cons_append, List.nil_append,
          e1, e2, List.take_left, List.drop_left, List.take_length]
  | MatchEvent side symbol quantity priceBits =>
      simp only [encode] at h
      split at h
      · exact absurd h (by simp)
      · split at h
        · exact absurd h (by simp)
        · rename_i hsize hnum
          push_neg at hsize hnum
          obtain ⟨hs, hy⟩ := hsize
          obtain ⟨hq0, hq1, hp⟩ := hnum
          injection h with h
          subst h
          have e1 : readU16 (side.length / 256 % 256) (side.length % 256) = side.length :=
            u16_round (by omega)
          have e2 : readU16 (symbol.length / 256 % 256) (symbol.length % 256) = symbol.length :=
            u16_round (by omega)
          have e3 : readU32 (quantity.toNat / 16777216 % 256) (quantity.toNat / 65536 % 256)
              (quantity.toNat / 256 % 256) (quantity.toNat % 256) = quantity.toNat :=
            u32_round (by omega)
          have e4 : readU32 (priceBits / 16777216 % 256) (priceBits / 65536 % 256)
              (priceBits / 256 % 256) (priceBits % 256) = priceBits :=
            u32_round (by omega)
          have e5 : ((quantity.toNat : Nat) : Int) = quantity := by omega
          unfold decodeFrame
          rw [feed_empty]
          have hshape : u16be side.length ++ u16be symbol.length ++ u32be quantity.toNat ++
              u32be priceBits ++ side ++ symbol =
              (u16be side.length ++ u16be symbol.length ++ u32be quantity.toNat ++
                u32be priceBits) ++ (side ++ symbol) ++ ([] : List Nat) := by
            simp [List.append_assoc]
          rw [hshape]
          rw [poll_frame_eq 2
            (u16be side.length ++ u16be symbol.length ++ u32be quantity.toNat ++ u32be priceBits)
            (side ++ symbol) [] (Or.inr (Or.inl rfl))
            (by simp [u16be, u32be, headerSize])
            (by simp [payloadLength, u16be, u32be, e1, e2])]
          simp only [buildEvent, reduceIte, u16be, u32be, List.cons_append, List.nil_append,
            e1, e2, e3, e4, e5, List.take_left, List.drop_left, List.take_length]
          rfl
  | PriceUpdateEvent symbol oldPriceBits newPriceBits =>
      simp only [encode] at h
      split at h
      · exact absurd h (by simp)
      · split at h
        · exact absurd h (by simp)
        · rename_i hsize hnum
          push_neg at hsize hnum
          obtain ⟨ho, hn⟩ := hnum
          injection h with h
          subst h
          have e1 : readU16 (symbol.length / 256 % 256) (symbol.length % 256) = symbol.length :=
            u16_round (by omega)
          have e3 : readU32 (oldPriceBits / 16777216 % 256) (oldPriceBits / 65536 % 256)
              (oldPriceBits / 256 % 256) (oldPriceBits % 256) = oldPriceBits :=
            u32_round (by omega)
          have e4 : readU32 (newPriceBits / 16777216 % 256) (newPriceBits / 65536 % 256)
              (newPriceBits / 256 % 256) (newPriceBits % 256) = newPriceBits :=
            u32_round (by omega)
          unfold decodeFrame
          rw [feed_empty]
          have hshape : u16be symbol.length ++ u32be oldPriceBits ++ u32be newPriceBits ++
              symbol =
              (u16be symbol.length ++ u32be oldPriceBits ++ u32be newPriceBits) ++ symbol ++
                ([] : List Nat) := by
            simp [List.append_assoc]
          rw [hshape]
          rw [poll_frame_eq 3
            (u16be symbol.length ++ u32be oldPriceBits ++ u32be newPriceBits) symbol []
            (Or.inr (Or.inr rfl))
            (by simp [u16be, u32be, headerSize])
            (by simp [payloadLength, u16be, u32be, e1])]
          simp only [buildEvent, reduceIte, u16be, u32be, List.cons_append, List.nil_append,
            e1, e3, e4, List.take_length]
          rfl

/-- C1 witness: the Log event with level "A" and message "B". -/
theorem claim_C1_encode_decode_roundtrip_witness :
    encode (Event.LogEvent [65] [66]) = .ok [1, 0, 1, 0, 1, 65, 66] ∧
    decodeFrame [1, 0, 1, 0, 1, 65, 66] = .ok (Event.LogEvent [65] [66], []) :=
  ⟨rfl, claim_C1_encode_decode_roundtrip (Event.LogEvent [65] [66]) [1, 0, 1, 0, 1, 65, 66] rfl⟩
